import Mathlib

/-!
# Secret Santa coordination tool — verification of the spec against the code

Shallow embedding of the data model, the Pairing Engine and the identity /
roster operations of the secret-santa application, together with theorems
settling the spec's claims.

The repository's UI layer (`src/App.tsx` and `src/components/*`) is embedded
directly.  The data-access module (`services/db.ts`) and the type module
(`types.ts`) are not part of the available sources: only their callers in
`src/App.tsx` are.  Every definition standing in for that module is marked
`Modelled from the spec:` and follows the specification's words for the
corresponding operation.
-/

set_option maxHeartbeats 1000000

namespace SecretSanta

/-- User roles, from `types.ts` (not under `src/`; the two role values are
fixed by the spec's data model: `role: one of ADMIN | PARTICIPANT`). -/
inductive UserRole
  | ADMIN
  | PARTICIPANT
deriving DecidableEq, Repr

/-- A participant/administrator record ("User"), per the spec's data model:
id, username, password, role, wishlist, nullable `assignedToId`. -/
structure User where
  id : String
  username : String
  password : String
  role : UserRole
  wishlist : String
  assignedToId : Option String
deriving DecidableEq, Repr

/-- The persisted store state: the roster table plus the single
`is_shuffled` flag. -/
structure DBState where
  users : List User
  is_shuffled : Bool
deriving DecidableEq, Repr

/-- The error taxonomy relevant to the claims (spec §7). -/
inductive DbError
  | DuplicateUsername
  | InsufficientParticipants
deriving DecidableEq, Repr

/-- The PARTICIPANT roster, as computed by the admin dashboard
(`src/App.tsx` line 261: `allUsers.filter(u => u.role === UserRole.PARTICIPANT)`)
and by the spec's glossary ("the full set of participant records excluding
the administrator"). -/
def participants (st : DBState) : List User :=
  st.users.filter (fun u => u.role = UserRole.PARTICIPANT)

/-- Modelled from the spec: `getUser(id) -> User | absent` of the
data-access contract (§6); `services/db.ts` is not under `src/`.  Lookup by
id over the roster table. -/
def getUserById (st : DBState) (uid : String) : Option User :=
  st.users.find? (fun u => u.id = uid)

/-- Modelled from the spec: `createParticipant(username, password)` (§4.2):
"fails with `DuplicateUsername` if a case-sensitive match exists; otherwise
creates a PARTICIPANT with empty wishlist and null assignment."
`services/db.ts` (`db.addUser`) is not under `src/`.  `newId` stands for the
opaque fresh id the store picks. -/
def addUser (username password newId : String) (st : DBState) :
    Except DbError DBState :=
  if st.users.any (fun u => u.username = username) then
    .error .DuplicateUsername
  else
    .ok { st with
            users := st.users ++
              [{ id := newId, username := username, password := password,
                 role := .PARTICIPANT, wishlist := "", assignedToId := none }] }

/-- Modelled from the spec: `deleteParticipant(id)` (§4.2): "removes the
record"; dangling `assignedToId` references are left in place.
`services/db.ts` (`db.deleteUser`) is not under `src/`. -/
def deleteUserOp (uid : String) (st : DBState) : DBState :=
  { st with users := st.users.filter (fun u => ¬ u.id = uid) }

/-- Modelled from the spec: `reset()` (§4.1): "Clears every participant's
`assignedToId` to null and sets `is_shuffled = false`. Unconditional."
`services/db.ts` (`db.resetGame`) is not under `src/`. -/
def resetGame (st : DBState) : DBState :=
  { users := st.users.map (fun u => { u with assignedToId := none }),
    is_shuffled := false }

/-- Modelled from the spec: `getAssignmentFor(userId)` (§4.1): "Resolves the
participant's `assignedToId`; if null or if the referenced user no longer
exists, returns \"no assignment\" (not an error). Otherwise returns the
referenced User."  `services/db.ts` is not under `src/`. -/
def getAssignmentFor (st : DBState) (uid : String) : Option User :=
  match getUserById st uid with
  | none => none
  | some u =>
    match u.assignedToId with
    | none => none
    | some target => getUserById st target

/-- The giver → recipient pairs of the spec's shuffle algorithm (§4.1):
"for each position i in the permuted order, assign
`permuted[i].assignedToId = permuted[(i+1) mod n].id`".  `perm` is the list
of participant ids in the permuted order; zipping with `perm.rotate 1`
yields exactly the pair `(perm[i], perm[(i+1) mod n])` at each position `i`
(see `cycleAssignments_getElem`). -/
def cycleAssignments (perm : List String) : List (String × String) :=
  perm.zip (perm.rotate 1)

/-- First-match lookup of a giver's recipient among the computed pairs. -/
def lookupAssign : List (String × String) → String → Option String
  | [], _ => none
  | p :: rest, x => if p.1 = x then some p.2 else lookupAssign rest x

/-- Write one user's computed assignment: a user appearing as a giver in
`pairs` gets its recipient; any other user (the ADMIN in particular) is
untouched. -/
def applyAssignment (pairs : List (String × String)) (u : User) : User :=
  match lookupAssign pairs u.id with
  | some target => { u with assignedToId := some target }
  | none => u

/-- Modelled from the spec: `shuffle(roster)` (§4.1): "must contain at least
2 participants; fails with an `InsufficientParticipants` condition
otherwise", then the single-cycle assignment over the randomly permuted
roster is persisted and `is_shuffled` is set.  `services/db.ts`
(`db.performShuffle`) is not under `src/`.  The random permutation is the
explicit argument `perm` (the participant ids in permuted order); theorems
assume `perm` is a permutation of the participant ids. -/
def performShuffle (perm : List String) (st : DBState) :
    Except DbError DBState :=
  if (participants st).length < 2 then
    .error .InsufficientParticipants
  else
    .ok { users := st.users.map (applyAssignment (cycleAssignments perm)),
          is_shuffled := true }

/-- The state the caller holds after invoking shuffle: on an engine error
the caller only displays the message (`src/App.tsx` line 306) and keeps its
state. -/
def runShuffle (perm : List String) (st : DBState) : DBState :=
  match performShuffle perm st with
  | .ok st' => st'
  | .error _ => st

/-- One hop along the persisted assignments: a user's `assignedToId` when
set, the user itself otherwise. -/
def step (st : DBState) (x : String) : String :=
  match getUserById st x with
  | some u => (u.assignedToId).getD x
  | none => x

/-- `k` hops along the persisted assignments. -/
def stepN (st : DBState) : Nat → String → String
  | 0, x => x
  | k + 1, x => stepN st k (step st x)

/-! ## Caller-side guards and handlers (`src/App.tsx`) -/

/-- From `src/App.tsx` line 350: the Shuffle button is rendered with
`disabled={isShuffled || users.length < 2 || loading}`. -/
def shuffleDisabled (isShuffled : Bool) (numUsers : Nat) (loading : Bool) :
    Bool :=
  isShuffled || decide (numUsers < 2) || loading

/-- From `src/App.tsx` lines 368-370: the Register Associate inputs and
button are rendered with `disabled={isShuffled || loading}`. -/
def createDisabled (isShuffled loading : Bool) : Bool :=
  isShuffled || loading

/-- From `src/App.tsx` line 421: the per-row delete button is rendered with
`disabled={isShuffled}`. -/
def deleteDisabled (isShuffled : Bool) : Bool :=
  isShuffled

/-- Outcome of an admin attempt to register a participant through the
guarded form. -/
inductive CreateOutcome
  | blocked
  | rejected (e : DbError)
  | created (st' : DBState)
deriving DecidableEq, Repr

/-- An admin attempt to register a participant: while the form is disabled
(`createDisabled`, with the dashboard's `isShuffled` mirroring the store's
flag via `refreshData`, `src/App.tsx` line 262) no call reaches the store;
otherwise the store's `addUser` decides. -/
def attemptCreate (username password newId : String) (st : DBState) :
    CreateOutcome :=
  if createDisabled st.is_shuffled false then .blocked
  else
    match addUser username password newId st with
    | .error e => .rejected e
    | .ok st' => .created st'

/-- An admin attempt to delete a participant: `none` when the delete button
is disabled (no call issued), otherwise the state after `deleteUser`. -/
def attemptDelete (uid : String) (st : DBState) : Option DBState :=
  if deleteDisabled st.is_shuffled then none
  else some (deleteUserOp uid st)

/-- A dashboard status message, from `src/App.tsx` line 250:
`{type: 'error'|'success', text: string}`. -/
structure AdminMsg where
  isError : Bool
  text : String
deriving DecidableEq, Repr

/-- From `src/App.tsx` lines 276-287 (`handleAddUser`): an empty username or
password returns before anything else happens; otherwise `db.addUser` is
called, a thrown error's `.message` is shown verbatim, and success shows the
fixed success text.  `em` maps a store error to its `.message` string (the
store's texts live in `services/db.ts`, outside `src/`).  The result is the
store state, the message state, and whether a store call was issued. -/
def handleAddUser (em : DbError → String)
    (newUsername newPassword newId : String) (st : DBState)
    (msg : Option AdminMsg) : DBState × Option AdminMsg × Bool :=
  if newUsername = "" ∨ newPassword = "" then (st, msg, false)
  else
    match addUser newUsername newPassword newId st with
    | .error e => (st, some ⟨true, em e⟩, true)
    | .ok st' => (st', some ⟨false, "Team member added successfully."⟩, true)

/-- Modelled from the spec: seeding (§6): "if the roster is empty, one ADMIN
row is inserted with a fixed well-known username/password pair"
(`db.seedAdminIfNeeded` lives in `services/db.ts`, outside `src/`; the
concrete well-known pair is therefore represented by fixed placeholder
strings). -/
def seedAdminIfNeeded (st : DBState) : DBState :=
  if st.users.isEmpty then
    { st with
        users := [{ id := "admin-id", username := "admin",
                    password := "admin", role := .ADMIN, wishlist := "",
                    assignedToId := none }] }
  else st

/-- From `src/App.tsx` lines 63-81 (`initApp`): when the store is
configured, seed if needed, then rehydrate the session from the cached id in
client-local storage: a resolving id becomes the current user; a missing or
stale id leaves the app logged out, and a stale id is removed from storage.
Returns (store state, current user, storage content after startup). -/
def initApp (dbReady : Bool) (st : DBState) (stored : Option String) :
    DBState × Option User × Option String :=
  if dbReady then
    let st1 := seedAdminIfNeeded st
    match stored with
    | none => (st1, none, none)
    | some sid =>
      match getUserById st1 sid with
      | some u => (st1, some u, some sid)
      | none => (st1, none, none)
  else (st, none, stored)

/-- From `src/App.tsx` lines 318-324 (`handleCopyInvite`): the clipboard
text written by the Invite action. -/
def inviteText (origin : String) (u : User) : String :=
  "Hi " ++ u.username ++
    "! ðŸ¢ Lodha Group - CRM IT Team Holiday Exchange.\nAccess Portal: " ++
    origin ++ "\nUser: " ++ u.username ++ "\nPass: " ++ u.password

/-- From `src/App.tsx` lines 398-401: the texts rendered in the roster
table's Name cell for a participant row — the username and, under it, the
password. -/
def rosterNameCell (u : User) : List String :=
  [u.username, u.password]

/-! ## Concrete shuffle fixture -/

/-- A concrete store: the seeded admin plus the three participants of the
spec's concrete scenario. -/
def rosterABC : DBState :=
  ⟨[⟨"adm", "admin", "root", .ADMIN, "", none⟩,
    ⟨"a1", "alice", "p1", .PARTICIPANT, "w1", none⟩,
    ⟨"b1", "bob", "p2", .PARTICIPANT, "", none⟩,
    ⟨"c1", "carol", "p3", .PARTICIPANT, "", none⟩], false⟩

/-- A concrete random order of the three participant ids. -/
def permABC : List String := ["b1", "c1", "a1"]

/-- The store after shuffling `rosterABC` along `permABC`:
b1 → c1 → a1 → b1, admin untouched, flag set. -/
def rosterABCshuffled : DBState :=
  ⟨[⟨"adm", "admin", "root", .ADMIN, "", none⟩,
    ⟨"a1", "alice", "p1", .PARTICIPANT, "w1", some "b1"⟩,
    ⟨"b1", "bob", "p2", .PARTICIPANT, "", some "c1"⟩,
    ⟨"c1", "carol", "p3", .PARTICIPANT, "", some "a1"⟩], true⟩

/-! ## Theorems -/

/-- C5: `reset()` sets every participant's `assignedToId` to null and sets
`is_shuffled` to false, for every starting state (no precondition; safe to
call when already reset), and changes no field other than `assignedToId`
and the flag. -/
theorem resetGame_clears_assignments (st : DBState) :
    (∀ u ∈ (resetGame st).users, u.assignedToId = none)
    ∧ (resetGame st).is_shuffled = false
    ∧ (resetGame st).users.map
        (fun u => (u.id, u.username, u.password, u.role, u.wishlist))
      = st.users.map
          (fun u => (u.id, u.username, u.password, u.role, u.wishlist))
    ∧ resetGame (resetGame st) = resetGame st := by
  refine ⟨?_, rfl, ?_, ?_⟩
  · intro u hu
    simp only [resetGame, List.mem_map] at hu
    obtain ⟨a, _, rfl⟩ := hu
    rfl
  · simp [resetGame, List.map_map, Function.comp]
  · simp [resetGame, List.map_map, Function.comp]

/-- Witness for C5 at a concrete input: resetting a shuffled
two-participant roster clears both assignments, clears the flag, keeps
every other field, and is idempotent. -/
theorem resetGame_clears_assignments_holds :
    (∀ u ∈ (resetGame
        ⟨[⟨"a1", "alice", "p1", .PARTICIPANT, "", some "b1"⟩,
          ⟨"b1", "bob", "p2", .PARTICIPANT, "", some "a1"⟩],
         true⟩).users, u.assignedToId = none)
    ∧ (resetGame
        ⟨[⟨"a1", "alice", "p1", .PARTICIPANT, "", some "b1"⟩,
          ⟨"b1", "bob", "p2", .PARTICIPANT, "", some "a1"⟩],
         true⟩).is_shuffled = false
    ∧ (resetGame
        ⟨[⟨"a1", "alice", "p1", .PARTICIPANT, "", some "b1"⟩,
          ⟨"b1", "bob", "p2", .PARTICIPANT, "", some "a1"⟩],
         true⟩).users.map
          (fun u => (u.id, u.username, u.password, u.role, u.wishlist))
      = (⟨[⟨"a1", "alice", "p1", .PARTICIPANT, "", some "b1"⟩,
           ⟨"b1", "bob", "p2", .PARTICIPANT, "", some "a1"⟩],
          true⟩ : DBState).users.map
          (fun u => (u.id, u.username, u.password, u.role, u.wishlist))
    ∧ resetGame (resetGame
        ⟨[⟨"a1", "alice", "p1", .PARTICIPANT, "", some "b1"⟩,
          ⟨"b1", "bob", "p2", .PARTICIPANT, "", some "a1"⟩],
         true⟩)
      = resetGame
        ⟨[⟨"a1", "alice", "p1", .PARTICIPANT, "", some "b1"⟩,
          ⟨"b1", "bob", "p2", .PARTICIPANT, "", some "a1"⟩],
         true⟩ :=
  resetGame_clears_assignments
    ⟨[⟨"a1", "alice", "p1", .PARTICIPANT, "", some "b1"⟩,
      ⟨"b1", "bob", "p2", .PARTICIPANT, "", some "a1"⟩], true⟩

/-- C9: submitting the registration form with an empty username or an empty
password is a silent no-op — the store state is untouched, the message state
is untouched (not even cleared), and no creation call is issued. -/
theorem handleAddUser_empty_silent_noop (em : DbError → String)
    (username password newId : String) (st : DBState) (msg : Option AdminMsg)
    (h : username = "" ∨ password = "") :
    handleAddUser em username password newId st msg = (st, msg, false) := by
  simp only [handleAddUser, if_pos h]

/-- Witness for C9 at a concrete input: an empty username with a non-empty
password leaves the state and message untouched and issues no store call. -/
theorem handleAddUser_empty_silent_noop_holds :
    handleAddUser (fun _ => "boom") "" "pw" "id9" ⟨[], false⟩
        (some ⟨false, "old"⟩)
      = (⟨[], false⟩, some ⟨false, "old"⟩, false) :=
  handleAddUser_empty_silent_noop (fun _ => "boom") "" "pw" "id9" ⟨[], false⟩
    (some ⟨false, "old"⟩) (Or.inl rfl)

/-- C10: for every participant, the admin dashboard exposes the plaintext
password — the roster table's Name cell renders the username and the
password, and the Invite clipboard text contains the username and the
password verbatim. -/
theorem admin_exposes_plaintext_password (origin : String) (u : User) :
    (∃ p m, inviteText origin u = p ++ u.username ++ m ++ u.password)
    ∧ u.username ∈ rosterNameCell u
    ∧ u.password ∈ rosterNameCell u := by
  refine ⟨⟨"Hi ",
    "! ðŸ¢ Lodha Group - CRM IT Team Holiday Exchange.\nAccess Portal: "
      ++ origin ++ "\nUser: " ++ u.username ++ "\nPass: ", ?_⟩, ?_, ?_⟩
  · simp only [inviteText, String.append_assoc]
  · simp [rosterNameCell]
  · simp [rosterNameCell]

/-- C2: with fewer than 2 participants, shuffle fails with
`InsufficientParticipants` and the caller's state — every `assignedToId`
and the `is_shuffled` flag — is unchanged. -/
theorem shuffle_insufficient_participants (perm : List String)
    (st : DBState) (h : (participants st).length < 2) :
    performShuffle perm st = .error .InsufficientParticipants
    ∧ runShuffle perm st = st := by
  have h1 : performShuffle perm st = .error .InsufficientParticipants := by
    simp [performShuffle, h]
  exact ⟨h1, by simp [runShuffle, h1]⟩

/-- Witness for C2 at a concrete input: a one-participant roster. -/
theorem shuffle_insufficient_participants_holds :
    performShuffle ["a1"]
        ⟨[⟨"a1", "alice", "pw", .PARTICIPANT, "", none⟩], false⟩
      = .error .InsufficientParticipants
    ∧ runShuffle ["a1"]
        ⟨[⟨"a1", "alice", "pw", .PARTICIPANT, "", none⟩], false⟩
      = ⟨[⟨"a1", "alice", "pw", .PARTICIPANT, "", none⟩], false⟩ :=
  shuffle_insufficient_participants ["a1"]
    ⟨[⟨"a1", "alice", "pw", .PARTICIPANT, "", none⟩], false⟩ (by decide)

/-- C3: while `is_shuffled = true`, participant creation is blocked (no
call reaches the store) and deletion is blocked; after reset
(`is_shuffled = false`) the same creation succeeds (for a username not
already taken) and the same deletion succeeds. -/
theorem locked_roster_blocks_create_delete (st : DBState)
    (username password newId uid : String)
    (hsh : st.is_shuffled = true)
    (hfree : ∀ u ∈ st.users, u.username ≠ username) :
    attemptCreate username password newId st = .blocked
    ∧ attemptDelete uid st = none
    ∧ attemptCreate username password newId (resetGame st)
        = .created
            { users := (resetGame st).users ++
                [⟨newId, username, password, .PARTICIPANT, "", none⟩],
              is_shuffled := false }
    ∧ attemptDelete uid (resetGame st)
        = some (deleteUserOp uid (resetGame st)) := by
  refine ⟨?_, ?_, ?_, ?_⟩
  · simp [attemptCreate, createDisabled, hsh]
  · simp [attemptDelete, deleteDisabled, hsh]
  · have hflag : (resetGame st).is_shuffled = false := rfl
    have hany : ((resetGame st).users.any
        (fun u => u.username = username)) = false := by
      rw [List.any_eq_false]
      intro u hu
      simp only [resetGame, List.mem_map] at hu
      obtain ⟨a, ha, rfl⟩ := hu
      simpa using hfree a ha
    simp [attemptCreate, createDisabled, hflag, addUser, hany]
  · simp [attemptDelete, deleteDisabled, resetGame]

/-- Witness for C3 at a concrete input: a shuffled two-participant roster;
creating "carol" and deleting "a1" are blocked, and both succeed after
reset. -/
theorem locked_roster_blocks_create_delete_holds :
    attemptCreate "carol" "pw3" "c1"
        ⟨[⟨"a1", "alice", "p1", .PARTICIPANT, "", some "b1"⟩,
          ⟨"b1", "bob", "p2", .PARTICIPANT, "", some "a1"⟩], true⟩
      = .blocked
    ∧ attemptDelete "a1"
        ⟨[⟨"a1", "alice", "p1", .PARTICIPANT, "", some "b1"⟩,
          ⟨"b1", "bob", "p2", .PARTICIPANT, "", some "a1"⟩], true⟩
      = none
    ∧ attemptCreate "carol" "pw3" "c1"
        (resetGame
          ⟨[⟨"a1", "alice", "p1", .PARTICIPANT, "", some "b1"⟩,
            ⟨"b1", "bob", "p2", .PARTICIPANT, "", some "a1"⟩], true⟩)
      = .created
          { users := (resetGame
              ⟨[⟨"a1", "alice", "p1", .PARTICIPANT, "", some "b1"⟩,
                ⟨"b1", "bob", "p2", .PARTICIPANT, "", some "a1"⟩],
                true⟩).users ++
              [⟨"c1", "carol", "pw3", .PARTICIPANT, "", none⟩],
            is_shuffled := false }
    ∧ attemptDelete "a1"
        (resetGame
          ⟨[⟨"a1", "alice", "p1", .PARTICIPANT, "", some "b1"⟩,
            ⟨"b1", "bob", "p2", .PARTICIPANT, "", some "a1"⟩], true⟩)
      = some (deleteUserOp "a1"
          (resetGame
            ⟨[⟨"a1", "alice", "p1", .PARTICIPANT, "", some "b1"⟩,
              ⟨"b1", "bob", "p2", .PARTICIPANT, "", some "a1"⟩], true⟩)) :=
  locked_roster_blocks_create_delete
    ⟨[⟨"a1", "alice", "p1", .PARTICIPANT, "", some "b1"⟩,
      ⟨"b1", "bob", "p2", .PARTICIPANT, "", some "a1"⟩], true⟩
    "carol" "pw3" "c1" "a1" (by decide) (by decide)

/-- C4: while `is_shuffled = true`, the Shuffle button's caller-side guard
rejects a second shuffle for every roster size and loading state; the
engine itself does not check the flag (it succeeds on a locked state with
enough participants); and only after an explicit reset does the guard
allow shuffling again. -/
theorem reshuffle_rejected_by_guard (st : DBState) (perm : List String)
    (hsh : st.is_shuffled = true) :
    (∀ numUsers loading,
        shuffleDisabled st.is_shuffled numUsers loading = true)
    ∧ (2 ≤ (participants st).length →
        performShuffle perm st
          = .ok ⟨st.users.map (applyAssignment (cycleAssignments perm)),
                 true⟩)
    ∧ (resetGame st).is_shuffled = false
    ∧ (∀ numUsers, 2 ≤ numUsers →
        shuffleDisabled (resetGame st).is_shuffled numUsers false
          = false) := by
  refine ⟨?_, ?_, rfl, ?_⟩
  · intro numUsers loading
    simp [shuffleDisabled, hsh]
  · intro hlen
    have : ¬ (participants st).length < 2 := by omega
    simp [performShuffle, this]
  · intro numUsers hn
    have : ¬ numUsers < 2 := by omega
    simp [shuffleDisabled, resetGame, this]

/-- Witness for C4 at a concrete input: a locked two-participant roster. -/
theorem reshuffle_rejected_by_guard_holds :
    (∀ numUsers loading,
        shuffleDisabled
          (⟨[⟨"a1", "alice", "p1", .PARTICIPANT, "", some "b1"⟩,
             ⟨"b1", "bob", "p2", .PARTICIPANT, "", some "a1"⟩],
            true⟩ : DBState).is_shuffled numUsers loading = true)
    ∧ (2 ≤ (participants
          ⟨[⟨"a1", "alice", "p1", .PARTICIPANT, "", some "b1"⟩,
            ⟨"b1", "bob", "p2", .PARTICIPANT, "", some "a1"⟩],
           true⟩).length →
        performShuffle ["a1", "b1"]
            ⟨[⟨"a1", "alice", "p1", .PARTICIPANT, "", some "b1"⟩,
              ⟨"b1", "bob", "p2", .PARTICIPANT, "", some "a1"⟩], true⟩
          = .ok ⟨(⟨[⟨"a1", "alice", "p1", .PARTICIPANT, "", some "b1"⟩,
                    ⟨"b1", "bob", "p2", .PARTICIPANT, "", some "a1"⟩],
                   true⟩ : DBState).users.map
                    (applyAssignment (cycleAssignments ["a1", "b1"])),
                 true⟩)
    ∧ (resetGame
        ⟨[⟨"a1", "alice", "p1", .PARTICIPANT, "", some "b1"⟩,
          ⟨"b1", "bob", "p2", .PARTICIPANT, "", some "a1"⟩],
         true⟩).is_shuffled = false
    ∧ (∀ numUsers, 2 ≤ numUsers →
        shuffleDisabled
          (resetGame
            ⟨[⟨"a1", "alice", "p1", .PARTICIPANT, "", some "b1"⟩,
              ⟨"b1", "bob", "p2", .PARTICIPANT, "", some "a1"⟩],
             true⟩).is_shuffled numUsers false = false) :=
  reshuffle_rejected_by_guard
    ⟨[⟨"a1", "alice", "p1", .PARTICIPANT, "", some "b1"⟩,
      ⟨"b1", "bob", "p2", .PARTICIPANT, "", some "a1"⟩], true⟩
    ["a1", "b1"] (by decide)

/-- C6: `getAssignmentFor` is total and never throws: it returns no
assignment when the participant is absent, when its `assignedToId` is null,
and when `assignedToId` references a user that no longer exists; otherwise
it returns the referenced user's record. -/
theorem getAssignmentFor_total_never_throws (st : DBState) (uid : String) :
    (getUserById st uid = none → getAssignmentFor st uid = none)
    ∧ (∀ u, getUserById st uid = some u → u.assignedToId = none →
        getAssignmentFor st uid = none)
    ∧ (∀ u t, getUserById st uid = some u → u.assignedToId = some t →
        getUserById st t = none → getAssignmentFor st uid = none)
    ∧ (∀ u t v, getUserById st uid = some u → u.assignedToId = some t →
        getUserById st t = some v → getAssignmentFor st uid = some v) := by
  refine ⟨?_, ?_, ?_, ?_⟩
  · intro h
    simp [getAssignmentFor, h]
  · intro u h1 h2
    simp [getAssignmentFor, h1, h2]
  · intro u t h1 h2 h3
    simp [getAssignmentFor, h1, h2, h3]
  · intro u t v h1 h2 h3
    simp [getAssignmentFor, h1, h2, h3]

/-- Witness for C6 at concrete inputs: in a roster where "alice" has a null
assignment, "bob" has a dangling assignment to a deleted id, and "carol" is
assigned to "alice", the three lookups resolve as specified. -/
theorem getAssignmentFor_total_never_throws_holds :
    getAssignmentFor
        ⟨[⟨"a1", "alice", "p1", .PARTICIPANT, "", none⟩,
          ⟨"b1", "bob", "p2", .PARTICIPANT, "", some "gone"⟩,
          ⟨"c1", "carol", "p3", .PARTICIPANT, "", some "a1"⟩], false⟩
        "a1" = none
    ∧ getAssignmentFor
        ⟨[⟨"a1", "alice", "p1", .PARTICIPANT, "", none⟩,
          ⟨"b1", "bob", "p2", .PARTICIPANT, "", some "gone"⟩,
          ⟨"c1", "carol", "p3", .PARTICIPANT, "", some "a1"⟩], false⟩
        "b1" = none
    ∧ getAssignmentFor
        ⟨[⟨"a1", "alice", "p1", .PARTICIPANT, "", none⟩,
          ⟨"b1", "bob", "p2", .PARTICIPANT, "", some "gone"⟩,
          ⟨"c1", "carol", "p3", .PARTICIPANT, "", some "a1"⟩], false⟩
        "c1" = some ⟨"a1", "alice", "p1", .PARTICIPANT, "", none⟩ :=
  ⟨(getAssignmentFor_total_never_throws
      ⟨[⟨"a1", "alice", "p1", .PARTICIPANT, "", none⟩,
        ⟨"b1", "bob", "p2", .PARTICIPANT, "", some "gone"⟩,
        ⟨"c1", "carol", "p3", .PARTICIPANT, "", some "a1"⟩], false⟩
      "a1").2.1 ⟨"a1", "alice", "p1", .PARTICIPANT, "", none⟩
        (by decide) (by decide),
   (getAssignmentFor_total_never_throws
      ⟨[⟨"a1", "alice", "p1", .PARTICIPANT, "", none⟩,
        ⟨"b1", "bob", "p2", .PARTICIPANT, "", some "gone"⟩,
        ⟨"c1", "carol", "p3", .PARTICIPANT, "", some "a1"⟩], false⟩
      "b1").2.2.1 ⟨"b1", "bob", "p2", .PARTICIPANT, "", some "gone"⟩
        "gone" (by decide) (by decide) (by decide),
   (getAssignmentFor_total_never_throws
      ⟨[⟨"a1", "alice", "p1", .PARTICIPANT, "", none⟩,
        ⟨"b1", "bob", "p2", .PARTICIPANT, "", some "gone"⟩,
        ⟨"c1", "carol", "p3", .PARTICIPANT, "", some "a1"⟩], false⟩
      "c1").2.2.2 ⟨"c1", "carol", "p3", .PARTICIPANT, "", some "a1"⟩
        "a1" ⟨"a1", "alice", "p1", .PARTICIPANT, "", none⟩
        (by decide) (by decide) (by decide)⟩

/-- C7: creating a participant fails with `DuplicateUsername` whenever a
case-sensitively equal username already exists, for every password, and the
error's message is surfaced verbatim to the dashboard; otherwise it creates
a PARTICIPANT with empty wishlist and null assignment. -/
theorem addUser_duplicate_username (st : DBState)
    (username newId : String) :
    ((∃ u ∈ st.users, u.username = username) →
      ∀ password,
        addUser username password newId st = .error .DuplicateUsername
        ∧ ∀ em msg, username ≠ "" → password ≠ "" →
            handleAddUser em username password newId st msg
              = (st, some ⟨true, em .DuplicateUsername⟩, true))
    ∧ ((∀ u ∈ st.users, u.username ≠ username) →
      ∀ password,
        addUser username password newId st
          = .ok { st with users := st.users ++
              [⟨newId, username, password, .PARTICIPANT, "", none⟩] }) := by
  constructor
  · intro hdup password
    have hany : (st.users.any (fun u => u.username = username)) = true := by
      rw [List.any_eq_true]
      obtain ⟨u, hu, he⟩ := hdup
      exact ⟨u, hu, by simp [he]⟩
    have herr : addUser username password newId st
        = .error .DuplicateUsername := by
      simp [addUser, hany]
    refine ⟨herr, ?_⟩
    intro em msg hu hp
    have hne : ¬ (username = "" ∨ password = "") := by
      simp [hu, hp]
    simp [handleAddUser, hne, herr]
  · intro hfree password
    have hany : (st.users.any (fun u => u.username = username)) = false := by
      rw [List.any_eq_false]
      intro u hu
      simpa using hfree u hu
    simp [addUser, hany]

/-- Witness for C7 at concrete inputs: adding "alice" again fails with
`DuplicateUsername` for a different password and the message is surfaced
verbatim; adding the fresh "bob" creates a PARTICIPANT with empty wishlist
and null assignment. -/
theorem addUser_duplicate_username_holds :
    (addUser "alice" "other-pw" "x2"
        ⟨[⟨"a1", "alice", "p1", .PARTICIPANT, "", none⟩], false⟩
      = .error .DuplicateUsername
     ∧ handleAddUser (fun _ => "Username already taken.") "alice" "other-pw"
          "x2" ⟨[⟨"a1", "alice", "p1", .PARTICIPANT, "", none⟩], false⟩ none
        = (⟨[⟨"a1", "alice", "p1", .PARTICIPANT, "", none⟩], false⟩,
           some ⟨true, "Username already taken."⟩, true))
    ∧ addUser "bob" "p2" "b1"
        ⟨[⟨"a1", "alice", "p1", .PARTICIPANT, "", none⟩], false⟩
      = .ok ⟨[⟨"a1", "alice", "p1", .PARTICIPANT, "", none⟩,
              ⟨"b1", "bob", "p2", .PARTICIPANT, "", none⟩], false⟩ :=
  have h := addUser_duplicate_username
    ⟨[⟨"a1", "alice", "p1", .PARTICIPANT, "", none⟩], false⟩ "alice" "x2"
  have h2 := addUser_duplicate_username
    ⟨[⟨"a1", "alice", "p1", .PARTICIPANT, "", none⟩], false⟩ "bob" "b1"
  ⟨⟨(h.1 ⟨⟨"a1", "alice", "p1", .PARTICIPANT, "", none⟩, by decide,
        rfl⟩ "other-pw").1,
    (h.1 ⟨⟨"a1", "alice", "p1", .PARTICIPANT, "", none⟩, by decide,
        rfl⟩ "other-pw").2 (fun _ => "Username already taken.") none
      (by decide) (by decide)⟩,
   h2.2 (by decide) "p2"⟩

/-- C8: on startup with a configured store, a missing cached session id
leaves the app logged out; a cached id that no longer resolves to a user
leaves the app logged out and is removed from client-local storage; a
resolving id makes that user the current session user.  `initApp` is a
total function, so startup never raises an error. -/
theorem initApp_session_rehydration (st : DBState) :
    initApp true st none = (seedAdminIfNeeded st, none, none)
    ∧ (∀ sid, getUserById (seedAdminIfNeeded st) sid = none →
        initApp true st (some sid) = (seedAdminIfNeeded st, none, none))
    ∧ (∀ sid u, getUserById (seedAdminIfNeeded st) sid = some u →
        initApp true st (some sid)
          = (seedAdminIfNeeded st, some u, some sid)) := by
  refine ⟨rfl, ?_, ?_⟩
  · intro sid h
    simp [initApp, h]
  · intro sid u h
    simp [initApp, h]

/-- Witness for C8 at concrete inputs: with a one-user roster, a stale
cached id "ghost" is dropped and the app stays logged out, while the cached
id "a1" logs "alice" back in. -/
theorem initApp_session_rehydration_holds :
    initApp true ⟨[⟨"a1", "alice", "p1", .PARTICIPANT, "", none⟩], false⟩
        (some "ghost")
      = (seedAdminIfNeeded
          ⟨[⟨"a1", "alice", "p1", .PARTICIPANT, "", none⟩], false⟩,
         none, none)
    ∧ initApp true ⟨[⟨"a1", "alice", "p1", .PARTICIPANT, "", none⟩], false⟩
        (some "a1")
      = (seedAdminIfNeeded
          ⟨[⟨"a1", "alice", "p1", .PARTICIPANT, "", none⟩], false⟩,
         some ⟨"a1", "alice", "p1", .PARTICIPANT, "", none⟩, some "a1") :=
  have h := initApp_session_rehydration
    ⟨[⟨"a1", "alice", "p1", .PARTICIPANT, "", none⟩], false⟩
  ⟨h.2.1 "ghost" (by decide),
   h.2.2 "a1" ⟨"a1", "alice", "p1", .PARTICIPANT, "", none⟩ (by decide)⟩

/-! ### Helper lemmas for the shuffle analysis -/

theorem succ_mod_ne_self {i n : Nat} (h2 : 2 ≤ n) (hi : i < n) :
    (i + 1) % n ≠ i := by
  rcases Nat.lt_or_ge (i + 1) n with h | h
  · rw [Nat.mod_eq_of_lt h]; omega
  · have he : i + 1 = n := by omega
    rw [he, Nat.mod_self]; omega

theorem add_mod_ne_self {i k n : Nat} (hi : i < n) (hk0 : 0 < k)
    (hkn : k < n) : (i + k) % n ≠ i := by
  rcases Nat.lt_or_ge (i + k) n with h | h
  · rw [Nat.mod_eq_of_lt h]; omega
  · have hlt : i + k - n < n := by omega
    have he : (i + k) % n = i + k - n := by
      rw [Nat.mod_eq_sub_mod h, Nat.mod_eq_of_lt hlt]
    omega

theorem cycleAssignments_length (perm : List String) :
    (cycleAssignments perm).length = perm.length := by
  simp [cycleAssignments]

theorem cycleAssignments_getElem (perm : List String) (i : Nat)
    (h : i < perm.length)
    (hc : i < (cycleAssignments perm).length)
    (hm : (i + 1) % perm.length < perm.length) :
    (cycleAssignments perm)[i] = (perm[i], perm[(i + 1) % perm.length]) := by
  simp only [cycleAssignments, List.getElem_zip, List.getElem_rotate]

theorem lookupAssign_mem (pairs : List (String × String))
    (hnd : (pairs.map Prod.fst).Nodup) {p : String × String}
    (hp : p ∈ pairs) : lookupAssign pairs p.1 = some p.2 := by
  induction pairs with
  | nil => simp at hp
  | cons q rest ih =>
    simp only [List.map_cons, List.nodup_cons] at hnd
    rcases List.mem_cons.mp hp with rfl | hmem
    · simp [lookupAssign]
    · have hq : q.1 ≠ p.1 := by
        intro he
        exact hnd.1 (he ▸ List.mem_map_of_mem Prod.fst hmem)
      simp [lookupAssign, hq, ih hnd.2 hmem]

theorem lookupAssign_isSome (pairs : List (String × String)) (x : String)
    (hx : x ∈ pairs.map Prod.fst) :
    ∃ t, lookupAssign pairs x = some t := by
  induction pairs with
  | nil => simp at hx
  | cons q rest ih =>
    by_cases hq : q.1 = x
    · exact ⟨q.2, by simp [lookupAssign, hq]⟩
    · simp only [List.map_cons, List.mem_cons] at hx
      rcases hx with he | hx
    -- x is the head's first component or occurs further down
      · exact absurd he.symm hq
      · obtain ⟨t, ht⟩ := ih hx
        exact ⟨t, by simp [lookupAssign, hq, ht]⟩

theorem cycleAssignments_fst (perm : List String) :
    (cycleAssignments perm).map Prod.fst = perm :=
  List.map_fst_zip _ _ (by rw [List.length_rotate])

theorem lookupAssign_cycle (perm : List String) (hnd : perm.Nodup)
    (i : Nat) (h : i < perm.length)
    (hm : (i + 1) % perm.length < perm.length) :
    lookupAssign (cycleAssignments perm) perm[i]
      = some perm[(i + 1) % perm.length] := by
  have hc : i < (cycleAssignments perm).length := by
    rw [cycleAssignments_length]; exact h
  have hmem : ((perm[i], perm[(i + 1) % perm.length]) : String × String)
      ∈ cycleAssignments perm := by
    rw [← cycleAssignments_getElem perm i h hc hm]
    exact List.getElem_mem hc
  have hl := lookupAssign_mem (cycleAssignments perm)
    (by rw [cycleAssignments_fst]; exact hnd) hmem
  simpa using hl

theorem applyAssignment_id (pairs : List (String × String)) (u : User) :
    (applyAssignment pairs u).id = u.id := by
  unfold applyAssignment
  cases lookupAssign pairs u.id <;> rfl

theorem applyAssignment_role (pairs : List (String × String)) (u : User) :
    (applyAssignment pairs u).role = u.role := by
  unfold applyAssignment
  cases lookupAssign pairs u.id <;> rfl

theorem applyAssignment_assigned (pairs : List (String × String))
    (u : User) (t : String) (h : lookupAssign pairs u.id = some t) :
    (applyAssignment pairs u).assignedToId = some t := by
  simp [applyAssignment, h]

theorem participants_map_assign (users : List User) (b : Bool)
    (pairs : List (String × String)) :
    participants ⟨users.map (applyAssignment pairs), b⟩
      = (participants ⟨users, b⟩).map (applyAssignment pairs) := by
  unfold participants
  rw [List.filter_map]
  congr 1
  apply List.filter_congr
  intro u _
  simp [Function.comp, applyAssignment_role]

theorem getUserById_map_assign (st : DBState) (b : Bool)
    (pairs : List (String × String)) (x : String) :
    getUserById ⟨st.users.map (applyAssignment pairs), b⟩ x
      = (getUserById st x).map (applyAssignment pairs) := by
  unfold getUserById
  rw [List.find?_map]
  have hpred : ((fun u => decide (u.id = x)) ∘ applyAssignment pairs)
      = (fun u => decide (u.id = x)) := by
    funext u
    simp [Function.comp, applyAssignment_id]
  rw [hpred]

theorem getUserById_of_mem (st : DBState) (x : String)
    (hx : ∃ u ∈ st.users, u.id = x) :
    ∃ u₁, getUserById st x = some u₁ ∧ u₁.id = x := by
  obtain ⟨u, hu, he⟩ := hx
  cases hfind : getUserById st x with
  | none =>
    unfold getUserById at hfind
    rw [List.find?_eq_none] at hfind
    have := hfind u hu
    simp [he] at this
  | some u₁ =>
    refine ⟨u₁, rfl, ?_⟩
    unfold getUserById at hfind
    have := List.find?_some hfind
    simpa using this

/-- C1: for every roster of at least 2 participants with pairwise distinct
ids, after a successful shuffle along a random order `perm` of the
participant ids: the participant ids are unchanged; the `assignedToId`
values form a permutation of the participant ids (every participant is
assigned exactly one recipient and is the recipient of exactly one giver);
no participant is assigned to itself (derangement); following assignments
from `perm[i]` is one hop of the cycle to `perm[(i+1) mod n]`, which
returns to its start after exactly `n` hops and not before, and visits
every participant; and the shuffled flag is set. -/
theorem shuffle_single_cycle_derangement
    (st st' : DBState) (perm : List String)
    (hperm : perm.Perm ((participants st).map User.id))
    (hnd : (st.users.map User.id).Nodup)
    (h2 : 2 ≤ (participants st).length)
    (hok : performShuffle perm st = Except.ok st') :
    (participants st').map User.id = (participants st).map User.id
    ∧ ((participants st').map User.assignedToId).Perm
        (((participants st).map User.id).map some)
    ∧ (∀ u ∈ participants st', u.assignedToId ≠ some u.id)
    ∧ (∀ i, i < perm.length →
        step st' (perm.getD i "") = perm.getD ((i + 1) % perm.length) "")
    ∧ (∀ i, i < perm.length →
        stepN st' perm.length (perm.getD i "") = perm.getD i ""
          ∧ ∀ k, 0 < k → k < perm.length →
              stepN st' k (perm.getD i "") ≠ perm.getD i "")
    ∧ (∀ x ∈ perm, ∃ k, k < perm.length
        ∧ stepN st' k (perm.getD 0 "") = x)
    ∧ st'.is_shuffled = true := by
  have hlt : ¬ (participants st).length < 2 := by omega
  unfold performShuffle at hok
  rw [if_neg hlt] at hok
  have hst' : st'
      = ⟨st.users.map (applyAssignment (cycleAssignments perm)), true⟩ :=
    (Except.ok.inj hok).symm
  subst hst'
  set pairs := cycleAssignments perm with hpairs
  have hlenp : perm.length = (participants st).length := by
    rw [hperm.length_eq, List.length_map]
  have hn2 : 2 ≤ perm.length := by omega
  have hsub : List.Sublist ((participants st).map User.id)
      (st.users.map User.id) :=
    List.Sublist.map User.id (List.filter_sublist st.users)
  have hnd0 : ((participants st).map User.id).Nodup :=
    List.Nodup.sublist hsub hnd
  have hndp : perm.Nodup := hperm.nodup_iff.mpr hnd0
  have hpart : participants
        ⟨st.users.map (applyAssignment pairs), true⟩
      = (participants st).map (applyAssignment pairs) :=
    participants_map_assign st.users true pairs
  have hids : (participants
        ⟨st.users.map (applyAssignment pairs), true⟩).map User.id
      = (participants st).map User.id := by
    rw [hpart, List.map_map]
    apply List.map_congr_left
    intro u _
    exact applyAssignment_id pairs u
  have hfstp : pairs.map Prod.fst = perm := cycleAssignments_fst perm
  have hlook : ∀ u ∈ participants st,
      ∃ t, lookupAssign pairs u.id = some t := by
    intro u hu
    apply lookupAssign_isSome
    rw [hfstp]
    exact hperm.mem_iff.mpr (List.mem_map_of_mem User.id hu)
  have hmapa : (participants
        ⟨st.users.map (applyAssignment pairs), true⟩).map User.assignedToId
      = ((participants st).map User.id).map (lookupAssign pairs) := by
    rw [hpart, List.map_map, List.map_map]
    apply List.map_congr_left
    intro u hu
    obtain ⟨t, ht⟩ := hlook u hu
    simp [Function.comp, applyAssignment_assigned pairs u t ht, ht]
  have hrot : perm.map (lookupAssign pairs)
      = (perm.rotate 1).map some := by
    apply List.ext_getElem
    · simp [List.length_rotate]
    · intro i h1 h2'
      have hi : i < perm.length := by simpa using h1
      have hm : (i + 1) % perm.length < perm.length :=
        Nat.mod_lt _ (by omega)
      rw [List.getElem_map, List.getElem_map, List.getElem_rotate]
      exact lookupAssign_cycle perm hndp i hi hm
  have hpermA : ((participants
        ⟨st.users.map (applyAssignment pairs), true⟩).map
          User.assignedToId).Perm
      (((participants st).map User.id).map some) := by
    rw [hmapa]
    have q1 : (((participants st).map User.id).map
        (lookupAssign pairs)).Perm (perm.map (lookupAssign pairs)) :=
      (hperm.map _).symm
    rw [hrot] at q1
    exact q1.trans (((List.rotate_perm perm 1).map some).trans
      (hperm.map some))
  have hnofix : ∀ u' ∈ participants
      ⟨st.users.map (applyAssignment pairs), true⟩,
      u'.assignedToId ≠ some u'.id := by
    rw [hpart]
    intro u' hu'
    obtain ⟨u, hu, rfl⟩ := List.mem_map.mp hu'
    have hxin : u.id ∈ perm :=
      hperm.mem_iff.mpr (List.mem_map_of_mem User.id hu)
    obtain ⟨i, hi, hieq⟩ := List.mem_iff_getElem.mp hxin
    have hm : (i + 1) % perm.length < perm.length :=
      Nat.mod_lt _ (by omega)
    have hlk := lookupAssign_cycle perm hndp i hi hm
    rw [hieq] at hlk
    rw [applyAssignment_assigned pairs u _ hlk, applyAssignment_id]
    intro hcon
    have hsame : perm[(i + 1) % perm.length] = perm[i] :=
      (Option.some.inj hcon).trans hieq.symm
    exact succ_mod_ne_self hn2 hi (hndp.getElem_inj_iff.mp hsame)
  have hstep : ∀ i, i < perm.length →
      step ⟨st.users.map (applyAssignment pairs), true⟩ (perm.getD i "")
        = perm.getD ((i + 1) % perm.length) "" := by
    intro i hi
    have hm : (i + 1) % perm.length < perm.length :=
      Nat.mod_lt _ (by omega)
    rw [List.getD_eq_getElem _ _ hi, List.getD_eq_getElem _ _ hm]
    have hxin : perm[i] ∈ (participants st).map User.id :=
      hperm.mem_iff.mp (List.getElem_mem hi)
    obtain ⟨u, hu, hue⟩ := List.mem_map.mp hxin
    have humem : u ∈ st.users := List.mem_of_mem_filter hu
    obtain ⟨u₁, hu₁, hid1⟩ :=
      getUserById_of_mem st perm[i] ⟨u, humem, hue⟩
    have hlk : lookupAssign pairs u₁.id
        = some perm[(i + 1) % perm.length] := by
      rw [hid1]
      exact lookupAssign_cycle perm hndp i hi hm
    unfold step
    rw [getUserById_map_assign, hu₁]
    simp [applyAssignment_assigned pairs u₁ _ hlk]
  have hstepN : ∀ k i, i < perm.length →
      stepN ⟨st.users.map (applyAssignment pairs), true⟩ k
          (perm.getD i "")
        = perm.getD ((i + k) % perm.length) "" := by
    intro k
    induction k with
    | zero =>
      intro i hi
      simp [stepN, Nat.mod_eq_of_lt hi]
    | succ k ih =>
      intro i hi
      have hm : (i + 1) % perm.length < perm.length :=
        Nat.mod_lt _ (by omega)
      have hidx : i + (k + 1) = i + 1 + k := by omega
      show stepN _ k (step _ (perm.getD i "")) = _
      rw [hstep i hi, ih _ hm, Nat.mod_add_mod, hidx]
  refine ⟨hids, hpermA, hnofix, hstep, ?_, ?_, rfl⟩
  · intro i hi
    refine ⟨?_, ?_⟩
    · rw [hstepN perm.length i hi, Nat.add_mod_right,
        Nat.mod_eq_of_lt hi]
    · intro k hk0 hkn he
      rw [hstepN k i hi] at he
      have hne := add_mod_ne_self hi hk0 hkn
      rw [List.getD_eq_getElem _ _ (Nat.mod_lt _ (by omega)),
        List.getD_eq_getElem _ _ hi] at he
      exact hne (hndp.getElem_inj_iff.mp he)
  · intro x hx
    obtain ⟨j, hj, hje⟩ := List.mem_iff_getElem.mp hx
    refine ⟨j, hj, ?_⟩
    rw [hstepN j 0 (by omega), Nat.zero_add, Nat.mod_eq_of_lt hj,
      List.getD_eq_getElem _ _ hj]
    exact hje

/-- Witness for C1 at a concrete input: the three-participant roster
shuffled along the order b1, c1, a1 satisfies every conjunct of the
single-cycle derangement theorem. -/
theorem shuffle_single_cycle_derangement_holds :
    (participants rosterABCshuffled).map User.id
        = (participants rosterABC).map User.id
    ∧ ((participants rosterABCshuffled).map User.assignedToId).Perm
        (((participants rosterABC).map User.id).map some)
    ∧ (∀ u ∈ participants rosterABCshuffled, u.assignedToId ≠ some u.id)
    ∧ (∀ i, i < permABC.length →
        step rosterABCshuffled (permABC.getD i "")
          = permABC.getD ((i + 1) % permABC.length) "")
    ∧ (∀ i, i < permABC.length →
        stepN rosterABCshuffled permABC.length (permABC.getD i "")
            = permABC.getD i ""
          ∧ ∀ k, 0 < k → k < permABC.length →
              stepN rosterABCshuffled k (permABC.getD i "")
                ≠ permABC.getD i "")
    ∧ (∀ x ∈ permABC, ∃ k, k < permABC.length
        ∧ stepN rosterABCshuffled k (permABC.getD 0 "") = x)
    ∧ rosterABCshuffled.is_shuffled = true :=
  shuffle_single_cycle_derangement rosterABC rosterABCshuffled permABC
    (by decide) (by decide) (by decide) rfl

end SecretSanta
